import Mathlib

/-!
Shallow embedding of `ctapipe/io/hdftableio.py` (HDF5TableWriter /
HDF5TableReader) and proofs about its behaviour.

Numeric cell payloads are modelled as rationals (`ℚ`); astropy units are
modelled as unit-name strings together with a conversion-factor table
`unitFactor` covering the length units exercised by the spec ("m", "cm", …).
The pytables storage engine is modelled as an in-memory file value
(`H5File`) holding named tables; its `close` follows pytables semantics
(closing an already closed file is a no-op).
-/

namespace HdfTableModel

/-- The pytables column-type constructors used by `PYTABLES_TYPE_MAP`. -/
inductive ColType where
  | Float64Col
  | Float32Col
  | IntCol
  | Int32Col
  | Int64Col
  | BoolCol
deriving DecidableEq, Repr

/-- `PYTABLES_TYPE_MAP`: closed map from a python type / numpy dtype name to
a pytables column type (source lines 19-27). -/
def PYTABLES_TYPE_MAP : List (String × ColType) :=
  [("float", ColType.Float64Col),
   ("float64", ColType.Float64Col),
   ("float32", ColType.Float32Col),
   ("int", ColType.IntCol),
   ("int32", ColType.Int32Col),
   ("int64", ColType.Int64Col),
   ("bool", ColType.BoolCol)]

/-- Conversion factor of a unit name to a fixed base unit. Models the astropy
unit algebra for the unit names the spec and tests use; unknown names get
factor 1. All factors are positive, so conversions are invertible. -/
def unitFactor (u : String) : ℚ :=
  if u = "m" then 1
  else if u = "cm" then 1 / 100
  else if u = "mm" then 1 / 1000
  else if u = "km" then 1000
  else 1

/-- A scalar `astropy.units.Quantity`: a numeric value carrying a unit. -/
structure Quantity where
  value : ℚ
  unit : String
deriving DecidableEq, Repr

/-- `Quantity.to`: express the quantity in another unit. -/
def Quantity.to (q : Quantity) (u : String) : Quantity :=
  ⟨q.value * unitFactor q.unit / unitFactor u, u⟩

/-- A python value held in a container field, covering the kinds the writer
dispatches on: fixed-shape numpy arrays (dtype name, shape, flat data),
numeric/boolean scalars (tagged with `type(value).__name__`), scalar unit
quantities, astropy `Time` values (carrying their mjd number), and anything
else (tagged with its type name). -/
inductive Value where
  | arr (dtype : String) (shape : List Nat) (data : List ℚ)
  | scalar (tyname : String) (x : ℚ)
  | quantity (q : Quantity)
  | time (mjd : ℚ)
  | unsupported (tyname : String)
deriving DecidableEq, Repr

/-- `type(value).__name__` for a `Value`. -/
def Value.pyTypeName : Value → String
  | .arr _ _ _ => "ndarray"
  | .scalar tyname _ => tyname
  | .quantity _ => "Quantity"
  | .time _ => "Time"
  | .unsupported tyname => tyname

/-- `tr_convert_and_strip_unit` (source line 527): convert to `unit`, drop it. -/
def tr_convert_and_strip_unit (quantity : Quantity) (unit : String) : ℚ :=
  (quantity.to unit).value

/-- `tr_time_to_float` (source line 538): a `Time` becomes its mjd number. -/
def tr_time_to_float (mjd : ℚ) : ℚ := mjd

/-- `tr_add_unit` (source line 542): reattach a unit to a raw number. -/
def tr_add_unit (value : ℚ) (unitname : String) : Quantity :=
  Quantity.mk value unitname

/-- The column transforms the writer and reader register (the source stores
python callables; the embedding stores these tags and applies them with
`Transform.apply`). `convertAndStripUnit u` is
`functools.partial(tr_convert_and_strip_unit, unit=u)`, `stripUnit` is
`lambda x: x.value`, `timeToFloat` is `tr_time_to_float`, and `addUnit u` is
`functools.partial(tr_add_unit, unitname=u)`. -/
inductive Transform where
  | convertAndStripUnit (unit : String)
  | stripUnit
  | timeToFloat
  | addUnit (unitname : String)
deriving DecidableEq, Repr

/-- Apply a transform to a value. On the value kinds the source ever feeds a
given transform (quantities to the unit strippers, times to `timeToFloat`,
raw stored numbers to `addUnit`) this follows the python; on any other input
the python callables would fail, and the model returns the value unchanged. -/
def Transform.apply : Transform → Value → Value
  | .convertAndStripUnit u, .quantity q => .scalar "float" (tr_convert_and_strip_unit q u)
  | .stripUnit, .quantity q => .scalar "float" q.value
  | .timeToFloat, .time m => .scalar "float" (tr_time_to_float m)
  | .addUnit u, .scalar _ x => .quantity (tr_add_unit x u)
  | _, v => v

/-- Update an association list at a key, python-dict style: an existing entry
keeps its position and gets the new value, a new key is appended. -/
def updateAssoc {α β : Type} [DecidableEq α] : List (α × β) → α → β → List (α × β)
  | [], k, v => [(k, v)]
  | (k', v') :: rest, k, v =>
      if k' = k then (k, v) :: rest else (k', v') :: updateAssoc rest k v


/-- `s.endsWith suffixStr` (python `str.endswith`), computed on the
character lists so that it reduces definitionally. -/
def strEndsWith (s suffixStr : String) : Bool :=
  List.isSuffixOf suffixStr.data s.data

/-- `s[:-n]` (python slicing / `String.dropRight`), computed on the
character lists so that it reduces definitionally. -/
def strDropRight (s : String) (n : Nat) : String :=
  ⟨s.data.take (s.data.length - n)⟩

/-- A compiled regular expression, exposed only through the operation the
writer uses on it: `re.match`, i.e. matching anchored at the start of a
candidate column name (source line 64). -/
structure RePattern where
  matchAtStart : String → Bool

/-- The compiled form of the pattern string `"raw_.*"` from the spec's
exclusion example: it matches at the start of exactly the names that begin
with `raw_`. -/
def rawPattern : RePattern :=
  ⟨fun s => List.isPrefixOf "raw_".data s.data⟩

/-- One field of a `ctapipe.core.Container`: its name, current value, and the
optional required unit declared on the `Field` (`container.fields[name].unit`,
source line 226). -/
structure ContField where
  name : String
  value : Value
  unit : Option String
deriving DecidableEq, Repr

/-- A `ctapipe.core.Container`: an ordered mapping from field name to value
(with per-field unit declarations) plus the instance metadata mapping
`Container.meta` (string key to scalar, modelled as strings). -/
structure Container where
  fields : List ContField
  meta : List (String × String)
deriving DecidableEq, Repr

/-- `container[colname] = value`: overwrite the named field's value if the
field exists, otherwise add a new (undeclared-unit) field, dict-style. -/
def Container.set (c : Container) (name : String) (v : Value) : Container :=
  if c.fields.any (fun f => f.name = name) then
    { c with fields := c.fields.map (fun f => if f.name = name then { f with value := v } else f) }
  else
    { c with fields := c.fields ++ [⟨name, v, none⟩] }

/-- Look up a field's current value in a container. -/
def Container.get (c : Container) (name : String) : Option Value :=
  (c.fields.find? (fun f => f.name = name)).map (·.value)

/-- A row of a pytables table: one stored value per column name. -/
abbrev HRow := List (String × Value)

/-- Schema entry: pytables column type and the shape passed to it
(`[]` stands for a scalar column, i.e. `coltype()` with no shape). -/
structure ColDesc where
  type : ColType
  shape : List Nat
deriving DecidableEq, Repr

/-- A pytables table description, in column insertion order
(`Schema.columns` in the source). -/
abbrev Schema := List (String × ColDesc)

/-- A pytables table node: description, header attributes, stored rows. -/
structure HTable where
  description : Schema
  attrs : List (String × String)
  rows : List HRow
deriving DecidableEq, Repr

/-- A pytables file: open flag plus named nodes. `tables.File.close` is a
no-op on an already closed file, which `H5File.close` reproduces. -/
structure H5File where
  isopen : Bool
  nodes : List (String × HTable)
deriving DecidableEq, Repr

def H5File.close (f : H5File) : H5File :=
  { f with isopen := false }

/-- `TableWriter._is_column_excluded`: true iff some registered pattern for
the table matches at the start of the column name (source lines 62-66). -/
def isColumnExcluded (patterns : List RePattern) (colName : String) : Bool :=
  patterns.any (fun p => p.matchAtStart colName)

/-- Version string recorded under the `CTAPIPE_VERSION` header attribute. -/
def ctapipeVersion : String := "0.1"

/-- Accumulator of `_create_hdf5_table_schema`: the pytables description
built so far, the extra header metadata (`meta`), and the writer's transform
registry (`self._transforms`, flattened to (table, column) keys since
`add_column_transform` overwrites per (table, column) pair). -/
structure SchemaAcc where
  schema : Schema
  meta : List (String × String)
  transforms : List ((String × String) × Transform)
deriving DecidableEq, Repr

/-- The per-field body of the loop in `_create_hdf5_table_schema` (source
lines 214-258). Excluded columns are skipped. A quantity is converted and
stripped (per the required unit) with the transform registered and a
`<name>_UNIT` metadata entry recorded. An ndarray looks its dtype name up in
`PYTABLES_TYPE_MAP` with python `dict[key]` semantics: a missing dtype raises
`KeyError`, modelled as `Except.error`. A `Time` gets a `Float64Col` and the
`tr_time_to_float` transform; otherwise a scalar whose type name is in the
map gets the mapped column type, and any remaining value is skipped. -/
def schemaAddField (tableName : String) (exclusions : List RePattern)
    (acc : SchemaAcc) (f : ContField) : Except String SchemaAcc :=
  if isColumnExcluded exclusions f.name then Except.ok acc
  else
    let step1 : Value × SchemaAcc :=
      match f.value with
      | .quantity q =>
        match f.unit with
        | some requnit =>
            let tr := Transform.convertAndStripUnit requnit
            (tr.apply f.value,
             { acc with
                meta := updateAssoc acc.meta (f.name ++ "_UNIT") requnit,
                transforms := updateAssoc acc.transforms (tableName, f.name) tr })
        | none =>
            let tr := Transform.stripUnit
            (tr.apply f.value,
             { acc with
                meta := updateAssoc acc.meta (f.name ++ "_UNIT") q.unit,
                transforms := updateAssoc acc.transforms (tableName, f.name) tr })
      | v => (v, acc)
    let value := step1.1
    let acc := step1.2
    match value with
    | .arr dtype shape _ =>
        match PYTABLES_TYPE_MAP.lookup dtype with
        | some coltype =>
            Except.ok { acc with schema := updateAssoc acc.schema f.name ⟨coltype, shape⟩ }
        | none => Except.error ("KeyError: " ++ dtype)
    | .time _ =>
        Except.ok { acc with
          schema := updateAssoc acc.schema f.name ⟨ColType.Float64Col, []⟩,
          transforms := updateAssoc acc.transforms (tableName, f.name) Transform.timeToFloat }
    | v =>
        match PYTABLES_TYPE_MAP.lookup v.pyTypeName with
        | some coltype =>
            Except.ok { acc with schema := updateAssoc acc.schema f.name ⟨coltype, []⟩ }
        | none => Except.ok acc

/-- `HDF5TableWriter._create_hdf5_table_schema` (source lines 190-262):
fold the loop body over every field of every container, then record the
`CTAPIPE_VERSION` metadata entry. Starts from the writer's current transform
registry (the source mutates `self._transforms` in place). -/
def createHdf5TableSchema (exclusions : List RePattern) (tableName : String)
    (containers : List Container) (transforms : List ((String × String) × Transform)) :
    Except String SchemaAcc := do
  let acc ← containers.foldlM
    (fun acc c => c.fields.foldlM (schemaAddField tableName exclusions) acc)
    ⟨[], [], transforms⟩
  Except.ok { acc with meta := updateAssoc acc.meta "CTAPIPE_VERSION" ctapipeVersion }

/-- State of an `HDF5TableWriter`: the group name given at construction, the
backing pytables file, the base-class registries (`self._exclusions`,
`self._transforms`), the per-table schemas (`self._schemas`), the map from
table name to its node path in the file (`self._tables`, which in python
aliases the node object), and `derivationLog`, a ghost spy that records one
entry per `_create_hdf5_table_schema` call (the spec asks schema
construction to be counted). -/
structure WriterState where
  groupName : String
  h5 : H5File
  exclusions : List (String × List RePattern)
  transforms : List ((String × String) × Transform)
  schemas : List (String × Schema)
  tablePaths : List (String × String)
  derivationLog : List String

/-- `HDF5TableWriter(filename, group_name)`: open a fresh file for writing
and create the group node; all registries start empty. -/
def WriterState.init (groupName : String) : WriterState :=
  ⟨groupName, ⟨true, []⟩, [], [], [], [], []⟩

/-- `TableWriter.exclude(table_name, pattern)` (source lines 49-60):
append a compiled pattern to the table's exclusion list. -/
def WriterState.exclude (w : WriterState) (tableName : String) (pattern : RePattern) :
    WriterState :=
  let pats := ((w.exclusions.lookup tableName).getD []) ++ [pattern]
  { w with exclusions := updateAssoc w.exclusions tableName pats }

/-- The exclusion patterns registered for a table (`self._exclusions` is a
`defaultdict(list)`). -/
def WriterState.exclusionsFor (w : WriterState) (tableName : String) : List RePattern :=
  (w.exclusions.lookup tableName).getD []

/-- `_apply_col_transform` (identical in `TableWriter`, source lines 116-123,
and `TableReader`, source lines 373-380): apply the registered transform for
(table, column) if there is one, else return the value unchanged. -/
def applyColTransform (transforms : List ((String × String) × Transform))
    (tableName colName : String) (value : Value) : Value :=
  match transforms.lookup (tableName, colName) with
  | some tr => tr.apply value
  | none => value

/-- The node path of a table created under the writer's group
(`create_group("/", group_name)` then `create_table(where=group, name=...)`). -/
def nodePath (groupName tableName : String) : String :=
  "/" ++ groupName ++ "/" ++ tableName

/-- The pytables default value of a column: zero scalars, zero-filled arrays
(what a row cell holds when no value was assigned before `row.append()`). -/
def ColDesc.defaultValue : ColDesc → Value
  | ⟨t, []⟩ =>
      Value.scalar (match t with
        | .Float64Col => "float"
        | .Float32Col => "float"
        | .IntCol => "int"
        | .Int32Col => "int"
        | .Int64Col => "int"
        | .BoolCol => "bool") 0
  | ⟨t, shape⟩ =>
      Value.arr (match t with
        | .Float64Col => "float64"
        | .Float32Col => "float32"
        | .IntCol => "int"
        | .Int32Col => "int32"
        | .Int64Col => "int64"
        | .BoolCol => "bool") shape (List.replicate shape.prod 0)

/-- `HDF5TableWriter._setup_new_table` (source lines 264-284): derive the
schema and header metadata, merge in each container's own metadata, create
the table node under the group with those attributes, and register the
schema and table. Appends the table name to the derivation spy. -/
def WriterState.setupNewTable (w : WriterState) (tableName : String)
    (containers : List Container) : Except String WriterState := do
  let acc ← createHdf5TableSchema (w.exclusionsFor tableName) tableName containers w.transforms
  let meta := containers.foldl
    (fun m c => c.meta.foldl (fun m kv => updateAssoc m kv.1 kv.2) m) acc.meta
  let path := nodePath w.groupName tableName
  let table : HTable := ⟨acc.schema, meta, []⟩
  Except.ok { w with
    h5 := { w.h5 with nodes := updateAssoc w.h5.nodes path table },
    transforms := acc.transforms,
    schemas := updateAssoc w.schemas tableName acc.schema,
    tablePaths := updateAssoc w.tablePaths tableName path,
    derivationLog := w.derivationLog ++ [tableName] }

/-- `HDF5TableWriter._append_row` (source lines 286-302): start a fresh row
(pytables defaults), then for each container field whose name is a table
column, store the transformed value into the row, and append the row to the
table. -/
def WriterState.appendRow (w : WriterState) (tableName : String)
    (containers : List Container) : WriterState :=
  match w.tablePaths.lookup tableName with
  | none => w
  | some path =>
    match w.h5.nodes.lookup path with
    | none => w
    | some table =>
      let colnames := table.description.map (·.1)
      let row0 : HRow := table.description.map (fun nc => (nc.1, nc.2.defaultValue))
      let row := containers.foldl
        (fun row c =>
          (c.fields.filter (fun f => colnames.contains f.name)).foldl
            (fun row f =>
              updateAssoc row f.name
                (applyColTransform w.transforms tableName f.name f.value)) row)
        row0
      let table := { table with rows := table.rows ++ [row] }
      { w with h5 := { w.h5 with nodes := updateAssoc w.h5.nodes path table } }

/-- `HDF5TableWriter.write` (source lines 304-325) for a list of containers:
set the table up on the first call for its name, then append one row. -/
def WriterState.write (w : WriterState) (tableName : String)
    (containers : List Container) : Except String WriterState :=
  Except.bind
    (if (w.schemas.lookup tableName).isSome then Except.ok w
     else w.setupNewTable tableName containers)
    (fun w => Except.ok (w.appendRow tableName containers))

/-- `write` called with a single container (the source wraps it in a
one-element tuple). -/
def WriterState.writeOne (w : WriterState) (tableName : String) (c : Container) :
    Except String WriterState :=
  w.write tableName [c]

/-- `HDF5TableWriter.close` (source lines 186-188): delegate to the file. -/
def WriterState.close (w : WriterState) : WriterState :=
  { w with h5 := w.h5.close }

/-- State of an `HDF5TableReader`: the open file, the column lists to read
per table (`self._cols_to_read`, a `defaultdict(list)`), the read-side
transform registry, and the cached table nodes (`self._tables`). The table
keys are the node paths passed to `read`. -/
structure ReaderState where
  h5 : H5File
  colsToRead : List (String × List String)
  transforms : List ((String × String) × Transform)
  tables : List (String × HTable)
deriving DecidableEq, Repr

/-- `HDF5TableReader(filename)`: open the file; registries start empty. -/
def ReaderState.init (h5 : H5File) : ReaderState :=
  ⟨{ h5 with isopen := true }, [], [], []⟩

/-- `HDF5TableReader.close` (source lines 450-452): delegate to the file. -/
def ReaderState.close (r : ReaderState) : ReaderState :=
  { r with h5 := r.h5.close }

/-- `HDF5TableReader._map_table_to_container` (source lines 472-496): append
to `cols_to_read` each table column whose name is a container field (table
column order), log-and-skip everything else, and copy every header attribute
into the container's metadata mapping. Returns the updated reader state and
the mutated container. -/
def ReaderState.mapTableToContainer (r : ReaderState) (tableName : String)
    (c : Container) : ReaderState × Container :=
  match r.tables.lookup tableName with
  | none => (r, c)
  | some tab =>
    let fieldNames := c.fields.map (·.name)
    let matched := (tab.description.map (·.1)).filter (fun cn => fieldNames.contains cn)
    let cols := ((r.colsToRead.lookup tableName).getD []) ++ matched
    let r := { r with colsToRead := updateAssoc r.colsToRead tableName cols }
    let meta := tab.attrs.foldl (fun m kv => updateAssoc m kv.1 kv.2) c.meta
    (r, { c with meta := meta })

/-- `HDF5TableReader._map_transforms_from_table_header` (source lines
461-470): for every header attribute whose name ends in `_UNIT`, register a
`tr_add_unit` transform for the column named by the attribute minus that
suffix. -/
def ReaderState.mapTransformsFromTableHeader (r : ReaderState) (tableName : String) :
    ReaderState :=
  match r.tables.lookup tableName with
  | none => r
  | some tab =>
    let trs := tab.attrs.foldl
      (fun trs kv =>
        if strEndsWith kv.1 "_UNIT" then
          updateAssoc trs (tableName, strDropRight kv.1 5) (Transform.addUnit kv.2)
        else trs)
      r.transforms
    { r with transforms := trs }

/-- `HDF5TableReader._setup_table` (source lines 454-459): fetch the node
(`get_node` raises `NoSuchNodeError` when absent), cache it, map columns to
the container, and rebuild the read-side transforms from the header. -/
def ReaderState.setupTable (r : ReaderState) (tableName : String) (c : Container) :
    Except String (ReaderState × Container) :=
  match r.h5.nodes.lookup tableName with
  | none => Except.error ("NoSuchNodeError: " ++ tableName)
  | some tab =>
    let r := { r with tables := updateAssoc r.tables tableName tab }
    let rc := r.mapTableToContainer tableName c
    Except.ok (rc.1.mapTransformsFromTableHeader tableName, rc.2)

/-- The value stored for a column in a row; pytables rows always carry every
table column, so the default is never hit on rows built by the writer. -/
def HRow.getCol (row : HRow) (colName : String) : Value :=
  (row.lookup colName).getD (Value.unsupported "missing")

/-- The body of the reader's row loop (source lines 518-521): for each
column in `cols_to_read`, apply the registered read transform (identity if
none) to the stored value and assign it into the container field of that
name, mutating the container in place. -/
def ReaderState.assignRow (r : ReaderState) (tableName : String) (row : HRow)
    (c : Container) : Container :=
  ((r.colsToRead.lookup tableName).getD []).foldl
    (fun c colname =>
      c.set colname (applyColTransform r.transforms tableName colname (row.getCol colname)))
    c

/-- The reader's `while 1` loop (source lines 509-524): fetch row `i`; an
`IndexError` past the last row ends the generator; otherwise assign the row
into the container, yield it, and continue with the next index. The returned
list is the sequence of yielded container states (the single mutated
instance, observed at each yield). -/
def ReaderState.readFrom (r : ReaderState) (tableName : String) (rows : List HRow)
    (i : Nat) (c : Container) : List Container :=
  if hlt : i < rows.length then
    let c := r.assignRow tableName (rows.get ⟨i, hlt⟩) c
    c :: r.readFrom tableName rows (i + 1) c
  else []
termination_by rows.length - i

/-- `HDF5TableReader.read` (source lines 498-524), with the generator made
explicit: run setup on the first call for this table name (the python does
that on first access of the lazy generator), then return the final reader
state together with the list of yielded container states. -/
def ReaderState.read (r : ReaderState) (tableName : String) (c : Container) :
    Except String (ReaderState × List Container) :=
  Except.bind
    (if (r.tables.lookup tableName).isSome then Except.ok (r, c)
     else r.setupTable tableName c)
    (fun rc =>
      match rc.1.tables.lookup tableName with
      | some tab => Except.ok (rc.1, rc.1.readFrom tableName tab.rows 0 rc.2)
      | none => Except.error "unreachable: table cached by setup")

/-- `write` repeated over successive calls, one row batch per call. -/
def WriterState.writeMany (w : WriterState) (tableName : String)
    (batches : List (List Container)) : Except String WriterState :=
  batches.foldlM (fun w cs => w.write tableName cs) w

/-- The value kinds for which the loop of `_create_hdf5_table_schema` adds a
column: quantities (their stripped scalar value is a python float, which is
in the type map), arrays whose dtype name is mapped, `Time` values, and any
other value whose python type name is mapped. -/
def supportedKind : Value → Bool
  | .quantity _ => true
  | .arr dtype _ _ => (List.lookup dtype PYTABLES_TYPE_MAP).isSome
  | .time _ => true
  | v => (List.lookup v.pyTypeName PYTABLES_TYPE_MAP).isSome

/-- The iteration contract of the reader as the spec states it: one yielded
record per row, in row order; each step applies the per-row assignment to
the single record instance yielded at the previous step. -/
def yieldSequence (step : HRow → Container → Container) :
    List HRow → Container → List Container
  | [], _ => []
  | row :: rest, c =>
    let c := step row c
    c :: yieldSequence step rest c

/-- Write one single-field record named `x` to table `tbl` of group `grp`,
then read it back through the matching column name; `none` when a stage
fails or does not yield exactly one record. -/
def roundtripX (requnit : Option String) (v target : Value) : Option Value :=
  match (WriterState.init "grp").writeOne "tbl" ⟨[⟨"x", v, requnit⟩], []⟩ with
  | .error _ => none
  | .ok w =>
    match (ReaderState.init w.h5).read (nodePath "grp" "tbl") ⟨[⟨"x", target, requnit⟩], []⟩ with
    | .error _ => none
    | .ok (_, out) =>
      match out with
      | [c] => c.get "x"
      | _ => none

/-- The metre/centimetre scenario, write side: field `x` holds `v` in
centimetres and its `Field` declares metres as the required unit. -/
def writeQcm (v : ℚ) : Except String WriterState :=
  (WriterState.init "grp").writeOne "tbl" ⟨[⟨"x", Value.quantity ⟨v, "cm"⟩, some "m"⟩], []⟩

/-- The metre/centimetre scenario, read side: the values read back for `x`. -/
def readQcm (v : ℚ) : Option (List (Option Value)) :=
  (((writeQcm v).bind fun w =>
      (ReaderState.init w.h5).read (nodePath "grp" "tbl")
        ⟨[⟨"x", Value.scalar "float" 0, some "m"⟩], []⟩)).toOption.map
    (fun rc => rc.2.map (fun c => c.get "x"))

/-- Timestamp scenario, write side: field `t` holds a `Time` value. -/
def writeTimeRec (m : ℚ) : Except String WriterState :=
  (WriterState.init "grp").writeOne "tbl" ⟨[⟨"t", Value.time m, none⟩], []⟩

/-- Timestamp scenario, read side: final reader state and yielded records. -/
def readTimeRec (m : ℚ) : Option (ReaderState × List Container) :=
  ((writeTimeRec m).bind fun w =>
    (ReaderState.init w.h5).read (nodePath "grp" "tbl")
      ⟨[⟨"t", Value.scalar "float" 0, none⟩], []⟩).toOption

/-- Single-field record used by concrete witness instances. -/
def cW : Container := ⟨[⟨"y", Value.scalar "int" 7, none⟩], []⟩

/-- Writer state after the first write of `cW` to table `t` of group `g`. -/
def wW1 : WriterState :=
  ⟨"g",
   ⟨true, [("/g/t", ⟨[("y", ⟨ColType.IntCol, []⟩)], [("CTAPIPE_VERSION", ctapipeVersion)],
      [[("y", Value.scalar "int" 7)]]⟩)]⟩,
   [], [], [("t", [("y", ⟨ColType.IntCol, []⟩)])], [("t", "/g/t")], ["t"]⟩

/-- Writer state after two further writes of `cW` to the same table. -/
def wW2 : WriterState :=
  ⟨"g",
   ⟨true, [("/g/t", ⟨[("y", ⟨ColType.IntCol, []⟩)], [("CTAPIPE_VERSION", ctapipeVersion)],
      [[("y", Value.scalar "int" 7)], [("y", Value.scalar "int" 7)],
       [("y", Value.scalar "int" 7)]]⟩)]⟩,
   [], [], [("t", [("y", ⟨ColType.IntCol, []⟩)])], [("t", "/g/t")], ["t"]⟩

/-- A two-row table fixture for concrete reader witnesses. -/
def tabTest : HTable :=
  ⟨[("y", ⟨ColType.IntCol, []⟩)], [("CTAPIPE_VERSION", ctapipeVersion)],
   [[("y", Value.scalar "int" 1)], [("y", Value.scalar "int" 2)]]⟩

/-- A reader that has already set table `/g/t` up (columns matched,
transforms rebuilt) from a first container. -/
def rTest : ReaderState :=
  ⟨⟨true, [("/g/t", tabTest)]⟩, [("/g/t", ["y"])], [], [("/g/t", tabTest)]⟩

/-- The container the fixture reader was set up with. -/
def cT : Container :=
  ⟨[⟨"y", Value.scalar "int" 0, none⟩], [("CTAPIPE_VERSION", ctapipeVersion)]⟩

/-- A different target container, handed to a later `read` call. -/
def cT2 : Container := ⟨[⟨"y", Value.scalar "int" 0, none⟩], []⟩

/-- The records the fixture reader yields for `cT`. -/
def outTest : List Container :=
  [⟨[⟨"y", Value.scalar "int" 1, none⟩], [("CTAPIPE_VERSION", ctapipeVersion)]⟩,
   ⟨[⟨"y", Value.scalar "int" 2, none⟩], [("CTAPIPE_VERSION", ctapipeVersion)]⟩]

/-- Record with a pattern-matching field, an unmatched supported field, and
an unmatched field of unsupported kind. -/
def cExcl : Container :=
  ⟨[⟨"raw_x", Value.scalar "int" 1, none⟩, ⟨"keep", Value.scalar "int" 2, none⟩,
    ⟨"note", Value.unsupported "str", none⟩], []⟩

/-- The writer state after the first (exclusion-filtered) write of `cExcl`. -/
def wExclFinal : WriterState :=
  ⟨"g",
   ⟨true, [("/g/t", ⟨[("keep", ⟨ColType.IntCol, []⟩)], [("CTAPIPE_VERSION", ctapipeVersion)],
      [[("keep", Value.scalar "int" 2)]]⟩)]⟩,
   [("t", [rawPattern])], [], [("t", [("keep", ⟨ColType.IntCol, []⟩)])], [("t", "/g/t")], ["t"]⟩

/-!  Theorems.  -/

set_option maxHeartbeats 1600000
set_option maxRecDepth 8000

theorem unitFactor_pos (u : String) : 0 < unitFactor u := by
  unfold unitFactor
  repeat' split
  all_goals norm_num

theorem Quantity.to_to (q : Quantity) (u : String) : (q.to u).to q.unit = q := by
  cases q with
  | mk v w =>
    simp only [Quantity.to]
    congr 1
    have hu := (unitFactor_pos u).ne'
    have hw := (unitFactor_pos w).ne'
    field_simp

theorem lookup_updateAssoc_self {α β : Type} [DecidableEq α] [BEq α] [LawfulBEq α]
    (l : List (α × β)) (k : α) (v : β) : List.lookup k (updateAssoc l k v) = some v := by
  induction l with
  | nil => simp [updateAssoc, List.lookup]
  | cons p rest ih =>
    obtain ⟨k', v'⟩ := p
    by_cases h : k' = k
    · simp [updateAssoc, h, List.lookup]
    · simp only [updateAssoc, if_neg h, List.lookup]
      have : (k == k') = false := by
        simp only [beq_eq_false_iff_ne, ne_eq]
        exact fun hk => h hk.symm
      simp [this, ih]

theorem lookup_updateAssoc_ne {α β : Type} [DecidableEq α] [BEq α] [LawfulBEq α]
    (l : List (α × β)) (k k' : α) (v : β) (h : k' ≠ k) :
    List.lookup k' (updateAssoc l k v) = List.lookup k' l := by
  induction l with
  | nil =>
    simp only [updateAssoc, List.lookup]
    have : (k' == k) = false := by simp [beq_eq_false_iff_ne, h]
    simp [this]
  | cons p rest ih =>
    obtain ⟨a, b⟩ := p
    by_cases ha : a = k
    · subst ha
      simp only [updateAssoc, if_pos rfl, List.lookup]
      have : (k' == a) = false := by simp [beq_eq_false_iff_ne, h]
      simp [this]
    · simp only [updateAssoc, if_neg ha, List.lookup]
      by_cases hk : k' = a
      · simp [hk]
      · have : (k' == a) = false := by simp [beq_eq_false_iff_ne, hk]
        simp [this, ih]


theorem lookup_updateAssoc_isSome {α β : Type} [DecidableEq α] [BEq α] [LawfulBEq α]
    (l : List (α × β)) (k n : α) (v : β) (h : (List.lookup n l).isSome) :
    (List.lookup n (updateAssoc l k v)).isSome := by
  by_cases hk : n = k
  · subst hk
    simp [lookup_updateAssoc_self]
  · rw [lookup_updateAssoc_ne l k n v hk]
    exact h


/-- C7: `close()` on a writer or a reader is idempotent: a second (or any
later) call leaves the state exactly as the first call did, and `close` is a
total function of the state (it never fails), mirroring the delegation to
`tables.File.close`, which is a no-op on an already closed file. -/
theorem C7_close_idempotent :
    ∀ (w : WriterState) (r : ReaderState),
      w.close.close = w.close ∧ r.close.close = r.close := by
  intro w r
  constructor <;> rfl

/-- C4 counterexample: the claim says a fixed-shape numeric array whose
element dtype is outside the type map is silently skipped, but
`_create_hdf5_table_schema` runs `PYTABLES_TYPE_MAP[typename]`, so the first
write of a record holding a `complex64` array raises `KeyError` instead of
writing the record. -/
theorem C4_counterexample :
    (WriterState.init "g").writeOne "t"
        ⟨[⟨"z", Value.arr "complex64" [2] [0, 0], none⟩], []⟩
      = Except.error "KeyError: complex64" := by rfl

/-- C4 amended: a scalar field whose python type name has no type-map entry
(and which is not a quantity, array or timestamp) is silently skipped — the
field is absent from the schema, no error is raised, and the remaining
fields are still written; but a fixed-shape array whose element dtype is
outside the type map raises a `KeyError` that aborts the write. -/
theorem C4_unsupported_fields (ty sty dty : String) (x : ℚ) (ct : ColType)
    (shape : List Nat) (data : List ℚ)
    (hty : List.lookup ty PYTABLES_TYPE_MAP = none)
    (hsty : List.lookup sty PYTABLES_TYPE_MAP = some ct)
    (hdty : List.lookup dty PYTABLES_TYPE_MAP = none) :
    ((WriterState.init "g").writeOne "t"
          ⟨[⟨"s", Value.unsupported ty, none⟩, ⟨"y", Value.scalar sty x, none⟩], []⟩).toOption.map
        (fun w' => (List.lookup "t" w'.schemas,
                    (List.lookup "/g/t" w'.h5.nodes).map (fun tab => tab.rows)))
      = some (some [("y", ⟨ct, []⟩)], some [[("y", Value.scalar sty x)]])
    ∧ (WriterState.init "g").writeOne "t" ⟨[⟨"z", Value.arr dty shape data, none⟩], []⟩
        = Except.error ("KeyError: " ++ dty) := by
  constructor
  · simp [WriterState.writeOne, WriterState.write, WriterState.setupNewTable,
      createHdf5TableSchema, schemaAddField, isColumnExcluded, WriterState.exclusionsFor,
      WriterState.init, Value.pyTypeName, hty, hsty, updateAssoc, WriterState.appendRow,
      nodePath, applyColTransform, ColDesc.defaultValue, Except.bind, Except.pure, bind, pure]
    exact ⟨_, rfl, rfl, _, rfl, rfl⟩
  · simp [WriterState.writeOne, WriterState.write, WriterState.setupNewTable,
      createHdf5TableSchema, schemaAddField, isColumnExcluded, WriterState.exclusionsFor,
      WriterState.init, Value.pyTypeName, hdty, updateAssoc, Except.bind, Except.pure, bind, pure]

/-- C4 witness: the amended statement at `str` / `float` / `complex64`. -/
theorem C4_unsupported_fields_witness :
    ((WriterState.init "g").writeOne "t"
          ⟨[⟨"s", Value.unsupported "str", none⟩, ⟨"y", Value.scalar "float" 5, none⟩], []⟩).toOption.map
        (fun w' => (List.lookup "t" w'.schemas,
                    (List.lookup "/g/t" w'.h5.nodes).map (fun tab => tab.rows)))
      = some (some [("y", ⟨ColType.Float64Col, []⟩)], some [[("y", Value.scalar "float" 5)]])
    ∧ (WriterState.init "g").writeOne "t" ⟨[⟨"z", Value.arr "complex64" [2] [0, 0], none⟩], []⟩
        = Except.error ("KeyError: " ++ "complex64") :=
  C4_unsupported_fields "str" "float" "complex64" 5 ColType.Float64Col [2] [0, 0]
    (by rfl) (by rfl) (by rfl)


/-- C5: during schema derivation a (non-excluded) quantity field registers
the convert-and-strip transform and records `<name>_UNIT` equal to the
required unit when the field declares one, else the strip-own-unit transform
and the value's own unit string; the column type is then derived by looking
the stripped, unitless value's type name up in the type map. -/
theorem C5_quantity_schema (t n : String) (pats : List RePattern) (acc : SchemaAcc)
    (q : Quantity) (requ : Option String)
    (hx : isColumnExcluded pats n = false) :
    ∃ acc',
      schemaAddField t pats acc ⟨n, Value.quantity q, requ⟩ = Except.ok acc'
      ∧ List.lookup (n ++ "_UNIT") acc'.meta = some (requ.getD q.unit)
      ∧ List.lookup (t, n) acc'.transforms
          = some (requ.elim Transform.stripUnit Transform.convertAndStripUnit)
      ∧ (requ.elim Transform.stripUnit Transform.convertAndStripUnit).apply (Value.quantity q)
          = Value.scalar "float" (requ.elim q.value (tr_convert_and_strip_unit q))
      ∧ List.lookup n acc'.schema
          = (List.lookup ((requ.elim Transform.stripUnit
                Transform.convertAndStripUnit).apply (Value.quantity q)).pyTypeName
              PYTABLES_TYPE_MAP).map (fun ct => (⟨ct, []⟩ : ColDesc)) := by
  cases requ <;>
    simp [schemaAddField, hx, Transform.apply, Value.pyTypeName, lookup_updateAssoc_self,
      PYTABLES_TYPE_MAP, tr_convert_and_strip_unit, Option.elim, Option.getD]

/-- C5 witness: a 2 cm quantity with required unit metres. -/
theorem C5_quantity_schema_witness :
    ∃ acc',
      schemaAddField "t" [] ⟨[], [], []⟩ ⟨"x", Value.quantity ⟨2, "cm"⟩, some "m"⟩
        = Except.ok acc'
      ∧ List.lookup ("x" ++ "_UNIT") acc'.meta = some ((some "m").getD (Quantity.mk 2 "cm").unit)
      ∧ List.lookup ("t", "x") acc'.transforms
          = some ((some "m").elim Transform.stripUnit Transform.convertAndStripUnit)
      ∧ ((some "m").elim Transform.stripUnit Transform.convertAndStripUnit).apply
            (Value.quantity ⟨2, "cm"⟩)
          = Value.scalar "float"
              ((some "m").elim (Quantity.mk 2 "cm").value (tr_convert_and_strip_unit ⟨2, "cm"⟩))
      ∧ List.lookup "x" acc'.schema
          = (List.lookup (((some "m").elim Transform.stripUnit
                Transform.convertAndStripUnit).apply (Value.quantity ⟨2, "cm"⟩)).pyTypeName
              PYTABLES_TYPE_MAP).map (fun ct => (⟨ct, []⟩ : ColDesc)) :=
  C5_quantity_schema "t" "x" [] ⟨[], [], []⟩ ⟨2, "cm"⟩ (some "m") (by rfl)

theorem strEndsWith_version : strEndsWith "CTAPIPE_VERSION" "_UNIT" = false := by rfl

theorem strEndsWith_xunit : strEndsWith "x_UNIT" "_UNIT" = true := by rfl

theorem strDropRight_xunit : strDropRight "x_UNIT" 5 = "x" := by rfl

theorem unitFactor_m : unitFactor "m" = 1 := by rfl

theorem unitFactor_cm : unitFactor "cm" = 1 / 100 := by rfl

theorem lookup_float_map : List.lookup "float" PYTABLES_TYPE_MAP = some ColType.Float64Col := by rfl

/-- C1 counterexample: writing field `x` holding the quantity 1 cm under a
required unit of metres and reading it back yields the quantity 1/100 m, not
the original numeric value 1 with unit string "cm": the round trip converts
to the required unit rather than reproducing the written value verbatim. -/
theorem C1_counterexample :
    roundtripX (some "m") (Value.quantity ⟨1, "cm"⟩) (Value.scalar "float" 0)
      = some (Value.quantity ⟨1 / 100, "m"⟩)
    ∧ (Value.quantity ⟨1 / 100, "m"⟩) ≠ (Value.quantity ⟨1, "cm"⟩) := by
  constructor
  · simp [roundtripX, WriterState.writeOne, WriterState.write, WriterState.setupNewTable,
      createHdf5TableSchema, schemaAddField, isColumnExcluded, WriterState.exclusionsFor,
      WriterState.init, Value.pyTypeName, updateAssoc, WriterState.appendRow, nodePath,
      applyColTransform, ColDesc.defaultValue, Except.bind, Except.pure, bind, pure, lookup_float_map,
      ReaderState.init, ReaderState.read, ReaderState.setupTable, ReaderState.mapTableToContainer,
      ReaderState.mapTransformsFromTableHeader, strEndsWith_version, strEndsWith_xunit,
      strDropRight_xunit, ReaderState.readFrom, ReaderState.assignRow, HRow.getCol,
      Container.set, Container.get, Transform.apply, tr_convert_and_strip_unit, tr_add_unit,
      Quantity.to, unitFactor_m, unitFactor_cm, lookup_float_map]
  · simp

/-- C1 amended: writing one single-field record of each supported kind and
reading it back reproduces the original logical value: arrays, scalars,
booleans, and quantities without a required unit round-trip verbatim; a
quantity with a required unit comes back as the physically equal quantity
expressed in the required unit (value converted, unit string the required
one), not with its original numeric value and unit string. -/
theorem C1_roundtrip_amended (x v : ℚ) (data : List ℚ) (shape : List Nat)
    (sty adty u r : String) (sct act : ColType)
    (hs : List.lookup sty PYTABLES_TYPE_MAP = some sct)
    (ha : List.lookup adty PYTABLES_TYPE_MAP = some act) :
    roundtripX none (Value.scalar sty x) (Value.scalar sty 0) = some (Value.scalar sty x)
    ∧ roundtripX none (Value.arr adty shape data) (Value.arr adty shape [])
        = some (Value.arr adty shape data)
    ∧ roundtripX none (Value.quantity ⟨v, u⟩) (Value.scalar "float" 0)
        = some (Value.quantity ⟨v, u⟩)
    ∧ roundtripX (some r) (Value.quantity ⟨v, u⟩) (Value.scalar "float" 0)
        = some (Value.quantity ((Quantity.mk v u).to r))
    ∧ ((Quantity.mk v u).to r).to u = Quantity.mk v u := by
  refine ⟨?_, ?_, ?_, ?_, Quantity.to_to ⟨v, u⟩ r⟩ <;>
    simp [roundtripX, WriterState.writeOne, WriterState.write, WriterState.setupNewTable,
      createHdf5TableSchema, schemaAddField, isColumnExcluded, WriterState.exclusionsFor,
      WriterState.init, Value.pyTypeName, hs, ha, updateAssoc, WriterState.appendRow, nodePath,
      applyColTransform, ColDesc.defaultValue, Except.bind, Except.pure, bind, pure, lookup_float_map,
      ReaderState.init, ReaderState.read, ReaderState.setupTable, ReaderState.mapTableToContainer,
      ReaderState.mapTransformsFromTableHeader, strEndsWith_version, strEndsWith_xunit,
      strDropRight_xunit, ReaderState.readFrom, ReaderState.assignRow, HRow.getCol,
      Container.set, Container.get, Transform.apply, tr_convert_and_strip_unit, tr_add_unit,
      Quantity.to]

/-- C1 witness: the amended statement at a boolean scalar, a two-element
float32 array, and a quantity of 2 cm with required unit metres. -/
theorem C1_roundtrip_amended_witness :
    roundtripX none (Value.scalar "bool" 1) (Value.scalar "bool" 0)
        = some (Value.scalar "bool" 1)
    ∧ roundtripX none (Value.arr "float32" [2] [1, 2]) (Value.arr "float32" [2] [])
        = some (Value.arr "float32" [2] [1, 2])
    ∧ roundtripX none (Value.quantity ⟨2, "cm"⟩) (Value.scalar "float" 0)
        = some (Value.quantity ⟨2, "cm"⟩)
    ∧ roundtripX (some "m") (Value.quantity ⟨2, "cm"⟩) (Value.scalar "float" 0)
        = some (Value.quantity ((Quantity.mk 2 "cm").to "m"))
    ∧ ((Quantity.mk 2 "cm").to "m").to "cm" = Quantity.mk 2 "cm" :=
  C1_roundtrip_amended 1 2 [1, 2] [2] "bool" "float32" "cm" "m"
    ColType.BoolCol ColType.Float32Col (by rfl) (by rfl)

/-- C6: a quantity field `x` with required unit "m" and native unit "cm"
yields header attribute `x_UNIT = "m"` and stores the raw number `v / 100`;
reading it back reconstructs the quantity `(v / 100) m`, which carries unit
"m" and is physically equal to 100 times the stored raw number in the native
centimetre unit. -/
theorem C6_header_roundtrip (v : ℚ) :
    (writeQcm v).toOption.map
        (fun w => (List.lookup "/grp/tbl" w.h5.nodes).map
          (fun tab => (List.lookup "x_UNIT" tab.attrs, tab.rows)))
      = some (some (some "m", [[("x", Value.scalar "float" (v / 100))]]))
    ∧ readQcm v = some [some (Value.quantity ⟨v / 100, "m"⟩)]
    ∧ (Quantity.mk (v / 100) "m").to "cm" = ⟨100 * (v / 100), "cm"⟩ := by
  refine ⟨?_, ?_, ?_⟩
  · simp [writeQcm, WriterState.writeOne, WriterState.write, WriterState.setupNewTable,
      createHdf5TableSchema, schemaAddField, isColumnExcluded, WriterState.exclusionsFor,
      WriterState.init, Value.pyTypeName, updateAssoc, WriterState.appendRow, nodePath,
      applyColTransform, ColDesc.defaultValue, Except.bind, Except.pure, Except.toOption, bind, pure, PYTABLES_TYPE_MAP, List.lookup,
      Transform.apply, tr_convert_and_strip_unit, Quantity.to, unitFactor_m, unitFactor_cm]
    ring
  · simp [readQcm, writeQcm, WriterState.writeOne, WriterState.write, WriterState.setupNewTable,
      createHdf5TableSchema, schemaAddField, isColumnExcluded, WriterState.exclusionsFor,
      WriterState.init, Value.pyTypeName, updateAssoc, WriterState.appendRow, nodePath,
      applyColTransform, ColDesc.defaultValue, Except.bind, Except.pure, Except.toOption, bind, pure, PYTABLES_TYPE_MAP, List.lookup,
      ReaderState.init, ReaderState.read, ReaderState.setupTable, ReaderState.mapTableToContainer,
      ReaderState.mapTransformsFromTableHeader, strEndsWith_version, strEndsWith_xunit,
      strDropRight_xunit, ReaderState.readFrom, ReaderState.assignRow, HRow.getCol,
      Container.set, Container.get, Transform.apply, tr_convert_and_strip_unit, tr_add_unit,
      Quantity.to, unitFactor_m, unitFactor_cm]
    ring
  · simp [Quantity.to, unitFactor_m, unitFactor_cm]
    ring

/-- C9: a `Time` field `t` is written through the timestamp-to-numeric
transform into a `Float64Col`; the reader registers no transform for that
column (only `_UNIT` attributes produce read transforms), so the yielded
value is the stored raw number — a plain numeric value, not a `Time`. -/
theorem C9_timestamp (m : ℚ) :
    (writeTimeRec m).toOption.map
        (fun w => (List.lookup "tbl" w.schemas,
                   List.lookup ("tbl", "t") w.transforms,
                   (List.lookup "/grp/tbl" w.h5.nodes).map (fun tab => tab.rows)))
      = some (some [("t", ⟨ColType.Float64Col, []⟩)], some Transform.timeToFloat,
              some [[("t", Value.scalar "float" (tr_time_to_float m))]])
    ∧ (readTimeRec m).map (fun rc => (List.lookup ("/grp/tbl", "t") rc.1.transforms,
          rc.2.map (fun c => c.get "t")))
      = some (none, [some (Value.scalar "float" (tr_time_to_float m))])
    ∧ ∀ q : ℚ, Value.scalar "float" (tr_time_to_float m) ≠ Value.time q := by
  refine ⟨?_, ?_, fun q => by simp⟩
  · simp [writeTimeRec, WriterState.writeOne, WriterState.write, WriterState.setupNewTable,
      createHdf5TableSchema, schemaAddField, isColumnExcluded, WriterState.exclusionsFor,
      WriterState.init, Value.pyTypeName, updateAssoc, WriterState.appendRow, nodePath,
      applyColTransform, ColDesc.defaultValue, Except.bind, Except.pure, Except.toOption, bind, pure, PYTABLES_TYPE_MAP, List.lookup,
      Transform.apply, tr_time_to_float]
  · simp [readTimeRec, writeTimeRec, WriterState.writeOne, WriterState.write,
      WriterState.setupNewTable, createHdf5TableSchema, schemaAddField, isColumnExcluded,
      WriterState.exclusionsFor, WriterState.init, Value.pyTypeName, updateAssoc,
      WriterState.appendRow, nodePath, applyColTransform, ColDesc.defaultValue,
      Except.bind, Except.pure, Except.toOption, bind, pure, PYTABLES_TYPE_MAP, List.lookup, ReaderState.init, ReaderState.read,
      ReaderState.setupTable, ReaderState.mapTableToContainer,
      ReaderState.mapTransformsFromTableHeader, strEndsWith_version, ReaderState.readFrom,
      ReaderState.assignRow, HRow.getCol, Container.set, Container.get, Transform.apply,
      tr_time_to_float]

theorem yieldSequence_length (step : HRow → Container → Container) :
    ∀ (rows : List HRow) (c : Container), (yieldSequence step rows c).length = rows.length := by
  intro rows
  induction rows with
  | nil => intro c; rfl
  | cons row rest ih => intro c; simp [yieldSequence, ih]

theorem readFrom_eq_yieldSequence (r : ReaderState) (t : String) (rows : List HRow) :
    ∀ (n i : Nat) (c : Container), rows.length - i ≤ n →
      r.readFrom t rows i c
        = yieldSequence (fun row cc => r.assignRow t row cc) (rows.drop i) c := by
  intro n
  induction n with
  | zero =>
    intro i c h
    rw [ReaderState.readFrom]
    have hge : ¬ i < rows.length := by omega
    rw [dif_neg hge, List.drop_eq_nil_of_le (by omega)]
    rfl
  | succ n ih =>
    intro i c h
    rw [ReaderState.readFrom]
    by_cases hlt : i < rows.length
    · rw [dif_pos hlt, List.drop_eq_getElem_cons hlt]
      simp only [yieldSequence, List.get_eq_getElem]
      exact congrArg _ (ih (i + 1) _ (by omega))
    · rw [dif_neg hlt, List.drop_eq_nil_of_le (by omega)]
      rfl

theorem readFrom_zero (r : ReaderState) (t : String) (rows : List HRow) (c : Container) :
    r.readFrom t rows 0 c = yieldSequence (fun row cc => r.assignRow t row cc) rows c := by
  have := readFrom_eq_yieldSequence r t rows rows.length 0 c (by omega)
  simpa using this

theorem Container.set_meta (c : Container) (n : String) (v : Value) :
    (c.set n v).meta = c.meta := by
  unfold Container.set
  split <;> rfl

theorem assignRow_meta (r : ReaderState) (t : String) (row : HRow) (c : Container) :
    (r.assignRow t row c).meta = c.meta := by
  unfold ReaderState.assignRow
  generalize (List.lookup t r.colsToRead).getD [] = cols
  induction cols generalizing c with
  | nil => rfl
  | cons a as ih =>
    simp only [List.foldl_cons]
    rw [ih, Container.set_meta]

theorem yieldSequence_meta (step : HRow → Container → Container)
    (hstep : ∀ row c, (step row c).meta = c.meta) :
    ∀ (rows : List HRow) (c c' : Container), c' ∈ yieldSequence step rows c →
      c'.meta = c.meta := by
  intro rows
  induction rows with
  | nil => intro c c' h; simp [yieldSequence] at h
  | cons row rest ih =>
    intro c c' h
    simp only [yieldSequence, List.mem_cons] at h
    rcases h with h | h
    · rw [h, hstep]
    · rw [ih _ _ h, hstep]

/-- C8: a successful `read` yields the sequence that applies the per-row
assignment (the registered read transform, or the identity when none is
registered for the column) to the single container instance, one yield per
table row in row order, terminating cleanly with exactly one record per
row. -/
theorem C8_read_iteration (r r' : ReaderState) (t : String) (c c₀ : Container)
    (out : List Container) (tab : HTable)
    (hsetup : (if (List.lookup t r.tables).isSome then Except.ok (r, c)
               else r.setupTable t c) = Except.ok (r', c₀))
    (htab : List.lookup t r'.tables = some tab)
    (hread : r.read t c = Except.ok (r', out)) :
    out = yieldSequence (fun row cc => r'.assignRow t row cc) tab.rows c₀
    ∧ out.length = tab.rows.length
    ∧ (∀ tn cn v, List.lookup (tn, cn) r'.transforms = none →
        applyColTransform r'.transforms tn cn v = v) := by
  have hout : out = r'.readFrom t tab.rows 0 c₀ := by
    unfold ReaderState.read at hread
    rw [hsetup] at hread
    simp only [Except.bind, htab, Except.ok.injEq, Prod.mk.injEq] at hread
    exact hread.2.symm
  refine ⟨?_, ?_, ?_⟩
  · rw [hout, readFrom_zero]
  · rw [hout, readFrom_zero, yieldSequence_length]
  · intro tn cn v hn
    simp [applyColTransform, hn]

/-- C8 witness: a cached two-row table read into a matching container. -/
theorem C8_read_iteration_witness :
    outTest = yieldSequence (fun row cc => rTest.assignRow "/g/t" row cc) tabTest.rows cT
    ∧ outTest.length = tabTest.rows.length
    ∧ (∀ tn cn v, List.lookup (tn, cn) rTest.transforms = none →
        applyColTransform rTest.transforms tn cn v = v) :=
  C8_read_iteration rTest rTest "/g/t" cT cT outTest tabTest (by rfl) (by rfl)
    (by simp [ReaderState.read, rTest, tabTest, cT, outTest, Except.bind, bind, pure,
          Except.pure, ReaderState.readFrom, ReaderState.assignRow, applyColTransform,
          HRow.getCol, Container.set])

/-- C10: once a table name is cached, a later `read` call with a different
target container leaves the reader state exactly unchanged (no columns are
re-matched, no transforms rebuilt, no table re-fetched) and the new
container's metadata mapping is untouched: every yielded record carries the
new container's original metadata. -/
theorem C10_cached_read (r : ReaderState) (t : String) (c₂ : Container) (tab : HTable)
    (h : List.lookup t r.tables = some tab) :
    r.read t c₂ = Except.ok (r, r.readFrom t tab.rows 0 c₂)
    ∧ ∀ c' ∈ r.readFrom t tab.rows 0 c₂, c'.meta = c₂.meta := by
  constructor
  · simp [ReaderState.read, h, Except.bind, bind, pure, Except.pure]
  · intro c' hc'
    rw [readFrom_zero] at hc'
    exact yieldSequence_meta _ (fun row cc => assignRow_meta r t row cc) _ _ _ hc'

/-- C10 witness: the cached fixture reader with a fresh container. -/
theorem C10_cached_read_witness :
    rTest.read "/g/t" cT2 = Except.ok (rTest, rTest.readFrom "/g/t" tabTest.rows 0 cT2)
    ∧ ∀ c' ∈ rTest.readFrom "/g/t" tabTest.rows 0 cT2, c'.meta = cT2.meta :=
  C10_cached_read rTest "/g/t" cT2 tabTest (by rfl)

theorem setupNewTable_ok (w ws : WriterState) (t : String) (cs : List Container)
    (h : w.setupNewTable t cs = Except.ok ws) :
    ws.derivationLog = w.derivationLog ++ [t]
    ∧ (List.lookup t ws.schemas).isSome
    ∧ List.lookup t ws.tablePaths = some (nodePath w.groupName t)
    ∧ ∃ tab, List.lookup (nodePath w.groupName t) ws.h5.nodes = some tab ∧ tab.rows = [] := by
  unfold WriterState.setupNewTable at h
  cases hacc : createHdf5TableSchema (w.exclusionsFor t) t cs w.transforms with
  | error e => rw [hacc] at h; exact absurd h (by simp [Except.bind, bind])
  | ok acc =>
    rw [hacc] at h
    simp only [Except.bind, bind, Except.ok.injEq] at h
    subst h
    refine ⟨rfl, ?_, ?_, ?_⟩
    · simp [lookup_updateAssoc_self]
    · simp [lookup_updateAssoc_self]
    · exact ⟨_, lookup_updateAssoc_self _ _ _, rfl⟩

theorem appendRow_ok (w : WriterState) (t : String) (cs : List Container)
    (path : String) (tab : HTable)
    (hp : List.lookup t w.tablePaths = some path)
    (hn : List.lookup path w.h5.nodes = some tab) :
    ∃ row : HRow,
      w.appendRow t cs
        = { w with h5 := { w.h5 with
              nodes := updateAssoc w.h5.nodes path { tab with rows := tab.rows ++ [row] } } } := by
  unfold WriterState.appendRow
  rw [hp]
  dsimp only
  rw [hn]
  exact ⟨_, rfl⟩

theorem write_established (w : WriterState) (t : String) (cs : List Container)
    (hs : (List.lookup t w.schemas).isSome) :
    w.write t cs = Except.ok (w.appendRow t cs) := by
  unfold WriterState.write
  rw [if_pos hs]
  rfl

theorem writeMany_established (t : String) :
    ∀ (bs : List (List Container)) (w w' : WriterState) (path : String) (tab : HTable),
      (List.lookup t w.schemas).isSome →
      List.lookup t w.tablePaths = some path →
      List.lookup path w.h5.nodes = some tab →
      w.writeMany t bs = Except.ok w' →
      w'.derivationLog = w.derivationLog
      ∧ List.lookup t w'.schemas = List.lookup t w.schemas
      ∧ List.lookup t w'.tablePaths = some path
      ∧ ∃ tab', List.lookup path w'.h5.nodes = some tab'
          ∧ tab'.description = tab.description
          ∧ tab'.attrs = tab.attrs
          ∧ tab'.rows.length = tab.rows.length + bs.length := by
  intro bs
  induction bs with
  | nil =>
    intro w w' path tab hs hp hn hw
    simp only [WriterState.writeMany, List.foldlM_nil, pure, Except.pure,
      Except.ok.injEq] at hw
    subst hw
    exact ⟨rfl, rfl, hp, tab, hn, rfl, rfl, by simp⟩
  | cons b rest ih =>
    intro w w' path tab hs hp hn hw
    simp only [WriterState.writeMany, List.foldlM_cons] at hw
    rw [write_established w t b hs] at hw
    simp only [Except.bind, bind] at hw
    obtain ⟨row, heq⟩ := appendRow_ok w t b path tab hp hn
    rw [heq] at hw
    have hw' : WriterState.writeMany _ t rest = Except.ok w' := hw
    obtain ⟨h1, h2, h3, tab', h4, h5, h6, h7⟩ :=
      ih _ w' path { tab with rows := tab.rows ++ [row] }
        (by simpa using hs) (by simpa using hp) (by simp [lookup_updateAssoc_self]) hw'
    refine ⟨h1, h2, h3, tab', h4, by simpa using h5, by simpa using h6, ?_⟩
    simp only [List.length_append, List.length_cons, List.length_nil] at h7 ⊢
    omega

/-- C2: on a writer that has not seen table `t`, the first `write` derives
the schema exactly once (one new entry in the derivation spy), and every
later `write` to `t` appends exactly one row without re-deriving the schema
or touching the table description or its header attributes. -/
theorem C2_schema_once (w w₁ w' : WriterState) (t : String) (b : List Container)
    (bs : List (List Container))
    (hfresh : List.lookup t w.schemas = none)
    (h1 : w.write t b = Except.ok w₁)
    (hrest : w₁.writeMany t bs = Except.ok w') :
    w₁.derivationLog = w.derivationLog ++ [t]
    ∧ w'.derivationLog = w₁.derivationLog
    ∧ List.lookup t w'.schemas = List.lookup t w₁.schemas
    ∧ ∃ path tab₁ tab',
        List.lookup t w₁.tablePaths = some path
        ∧ List.lookup path w₁.h5.nodes = some tab₁
        ∧ List.lookup path w'.h5.nodes = some tab'
        ∧ tab'.description = tab₁.description
        ∧ tab'.attrs = tab₁.attrs
        ∧ tab₁.rows.length = 1
        ∧ tab'.rows.length = 1 + bs.length := by
  unfold WriterState.write at h1
  rw [if_neg (by simp [hfresh])] at h1
  cases hsetup : w.setupNewTable t b with
  | error e => rw [hsetup] at h1; exact absurd h1 (by simp [Except.bind, bind])
  | ok ws =>
    rw [hsetup] at h1
    simp only [Except.bind, bind, Except.ok.injEq] at h1
    obtain ⟨hdl, hss, hsp, tab0, hsn, hsrows⟩ := setupNewTable_ok w ws t b hsetup
    obtain ⟨row, heq⟩ := appendRow_ok ws t b (nodePath w.groupName t) tab0 hsp hsn
    have hw1 : w₁ = { ws with h5 := { ws.h5 with
        nodes := updateAssoc ws.h5.nodes (nodePath w.groupName t)
          { tab0 with rows := tab0.rows ++ [row] } } } := by
      rw [← h1, heq]
    have hs1 : (List.lookup t w₁.schemas).isSome := by rw [hw1]; simpa using hss
    have hp1 : List.lookup t w₁.tablePaths = some (nodePath w.groupName t) := by
      rw [hw1]; simpa using hsp
    have hn1 : List.lookup (nodePath w.groupName t) w₁.h5.nodes
        = some { tab0 with rows := tab0.rows ++ [row] } := by
      rw [hw1]
      simp [lookup_updateAssoc_self]
    have hdl1 : w₁.derivationLog = w.derivationLog ++ [t] := by rw [hw1]; simpa using hdl
    obtain ⟨h1', h2', h3', tab', h4', h5', h6', h7'⟩ :=
      writeMany_established t bs w₁ w' (nodePath w.groupName t)
        { tab0 with rows := tab0.rows ++ [row] } hs1 hp1 hn1 hrest
    refine ⟨hdl1, h1', h2',
      nodePath w.groupName t, { tab0 with rows := tab0.rows ++ [row] }, tab',
      hp1, hn1, h4', h5', h6', by simp [hsrows], ?_⟩
    rw [h7']
    simp [hsrows]


/-- C2 witness: three writes of the same record; the derivation spy gains
exactly one entry and the table gains one row per write. -/
theorem C2_schema_once_witness :
    wW1.derivationLog = (WriterState.init "g").derivationLog ++ ["t"]
    ∧ wW2.derivationLog = wW1.derivationLog
    ∧ List.lookup "t" wW2.schemas = List.lookup "t" wW1.schemas
    ∧ ∃ path tab₁ tab',
        List.lookup "t" wW1.tablePaths = some path
        ∧ List.lookup path wW1.h5.nodes = some tab₁
        ∧ List.lookup path wW2.h5.nodes = some tab'
        ∧ tab'.description = tab₁.description
        ∧ tab'.attrs = tab₁.attrs
        ∧ tab₁.rows.length = 1
        ∧ tab'.rows.length = 1 + ([[cW], [cW]] : List (List Container)).length :=
  C2_schema_once (WriterState.init "g") wW1 wW2 "t" [cW] [[cW], [cW]]
    (by rfl) (by rfl) (by rfl)

theorem schemaAddField_excluded_eq (t : String) (pats : List RePattern) (acc : SchemaAcc)
    (f : ContField) (hx : isColumnExcluded pats f.name = true) :
    schemaAddField t pats acc f = Except.ok acc := by
  simp [schemaAddField, hx]

theorem schemaAddField_arr (t : String) (pats : List RePattern) (acc : SchemaAcc)
    (n d : String) (sh : List Nat) (dt : List ℚ) (u : Option String)
    (hx : isColumnExcluded pats n = false) :
    schemaAddField t pats acc ⟨n, Value.arr d sh dt, u⟩
      = match List.lookup d PYTABLES_TYPE_MAP with
        | some ct => Except.ok { acc with schema := updateAssoc acc.schema n ⟨ct, sh⟩ }
        | none => Except.error ("KeyError: " ++ d) := by
  cases hl : List.lookup d PYTABLES_TYPE_MAP <;> simp [schemaAddField, hx, hl]

theorem schemaAddField_scalar (t : String) (pats : List RePattern) (acc : SchemaAcc)
    (n ty : String) (x : ℚ) (u : Option String)
    (hx : isColumnExcluded pats n = false) :
    schemaAddField t pats acc ⟨n, Value.scalar ty x, u⟩
      = match List.lookup ty PYTABLES_TYPE_MAP with
        | some ct => Except.ok { acc with schema := updateAssoc acc.schema n ⟨ct, []⟩ }
        | none => Except.ok acc := by
  cases hl : List.lookup ty PYTABLES_TYPE_MAP <;>
    simp [schemaAddField, hx, Value.pyTypeName, hl]

theorem schemaAddField_unsupported (t : String) (pats : List RePattern) (acc : SchemaAcc)
    (n ty : String) (u : Option String)
    (hx : isColumnExcluded pats n = false) :
    schemaAddField t pats acc ⟨n, Value.unsupported ty, u⟩
      = match List.lookup ty PYTABLES_TYPE_MAP with
        | some ct => Except.ok { acc with schema := updateAssoc acc.schema n ⟨ct, []⟩ }
        | none => Except.ok acc := by
  cases hl : List.lookup ty PYTABLES_TYPE_MAP <;>
    simp [schemaAddField, hx, Value.pyTypeName, hl]

theorem schemaAddField_time (t : String) (pats : List RePattern) (acc : SchemaAcc)
    (n : String) (m : ℚ) (u : Option String)
    (hx : isColumnExcluded pats n = false) :
    schemaAddField t pats acc ⟨n, Value.time m, u⟩
      = Except.ok { acc with
          schema := updateAssoc acc.schema n ⟨ColType.Float64Col, []⟩,
          transforms := updateAssoc acc.transforms (t, n) Transform.timeToFloat } := by
  simp [schemaAddField, hx]

theorem schemaAddField_quantity (t : String) (pats : List RePattern) (acc : SchemaAcc)
    (n : String) (q : Quantity) (requ : Option String)
    (hx : isColumnExcluded pats n = false) :
    schemaAddField t pats acc ⟨n, Value.quantity q, requ⟩
      = Except.ok
          { schema := updateAssoc acc.schema n ⟨ColType.Float64Col, []⟩,
            meta := updateAssoc acc.meta (n ++ "_UNIT") (requ.getD q.unit),
            transforms := updateAssoc acc.transforms (t, n)
              (requ.elim Transform.stripUnit Transform.convertAndStripUnit) } := by
  cases requ <;>
    simp [schemaAddField, hx, Transform.apply, Value.pyTypeName, lookup_float_map,
      Option.elim, Option.getD]

theorem schemaAddField_ok_schema (t : String) (pats : List RePattern) (acc acc' : SchemaAcc)
    (f : ContField) (h : schemaAddField t pats acc f = Except.ok acc') :
    acc'.schema = acc.schema ∨ ∃ cd, acc'.schema = updateAssoc acc.schema f.name cd := by
  obtain ⟨n, v, u⟩ := f
  by_cases hx : isColumnExcluded pats n = true
  · rw [schemaAddField_excluded_eq t pats acc ⟨n, v, u⟩ hx] at h
    injection h with h
    left
    rw [← h]
  · have hx' : isColumnExcluded pats n = false := by simpa using hx
    cases v with
    | arr d sh dt =>
      rw [schemaAddField_arr t pats acc n d sh dt u hx'] at h
      cases hl : List.lookup d PYTABLES_TYPE_MAP <;> rw [hl] at h
      · exact absurd h (by simp)
      · injection h with h
        exact Or.inr ⟨_, by rw [← h]⟩
    | scalar ty x =>
      rw [schemaAddField_scalar t pats acc n ty x u hx'] at h
      cases hl : List.lookup ty PYTABLES_TYPE_MAP <;> rw [hl] at h <;> injection h with h
      · left; rw [← h]
      · exact Or.inr ⟨_, by rw [← h]⟩
    | quantity q =>
      rw [schemaAddField_quantity t pats acc n q u hx'] at h
      injection h with h
      exact Or.inr ⟨_, by rw [← h]⟩
    | time m =>
      rw [schemaAddField_time t pats acc n m u hx'] at h
      injection h with h
      exact Or.inr ⟨_, by rw [← h]⟩
    | unsupported ty =>
      rw [schemaAddField_unsupported t pats acc n ty u hx'] at h
      cases hl : List.lookup ty PYTABLES_TYPE_MAP <;> rw [hl] at h <;> injection h with h
      · left; rw [← h]
      · exact Or.inr ⟨_, by rw [← h]⟩

theorem schemaAddField_ok_adds (t : String) (pats : List RePattern) (acc acc' : SchemaAcc)
    (f : ContField) (hx : isColumnExcluded pats f.name = false)
    (hsup : supportedKind f.value = true)
    (h : schemaAddField t pats acc f = Except.ok acc') :
    (List.lookup f.name acc'.schema).isSome := by
  obtain ⟨n, v, u⟩ := f
  cases v with
  | arr d sh dt =>
    rw [schemaAddField_arr t pats acc n d sh dt u hx] at h
    cases hl : List.lookup d PYTABLES_TYPE_MAP <;> rw [hl] at h
    · exact absurd h (by simp)
    · injection h with h
      rw [← h]
      simp [lookup_updateAssoc_self]
  | scalar ty x =>
    rw [schemaAddField_scalar t pats acc n ty x u hx] at h
    have : (List.lookup ty PYTABLES_TYPE_MAP).isSome := by
      simpa [supportedKind, Value.pyTypeName] using hsup
    obtain ⟨ct, hl⟩ := Option.isSome_iff_exists.mp this
    rw [hl] at h
    injection h with h
    rw [← h]
    simp [lookup_updateAssoc_self]
  | quantity q =>
    rw [schemaAddField_quantity t pats acc n q u hx] at h
    injection h with h
    rw [← h]
    simp [lookup_updateAssoc_self]
  | time m =>
    rw [schemaAddField_time t pats acc n m u hx] at h
    injection h with h
    rw [← h]
    simp [lookup_updateAssoc_self]
  | unsupported ty =>
    rw [schemaAddField_unsupported t pats acc n ty u hx] at h
    have : (List.lookup ty PYTABLES_TYPE_MAP).isSome := by
      simpa [supportedKind, Value.pyTypeName] using hsup
    obtain ⟨ct, hl⟩ := Option.isSome_iff_exists.mp this
    rw [hl] at h
    injection h with h
    rw [← h]
    simp [lookup_updateAssoc_self]

theorem foldlM_schema_excluded (t : String) (pats : List RePattern) (n : String)
    (hx : isColumnExcluded pats n = true) :
    ∀ (fs : List ContField) (acc acc' : SchemaAcc),
      List.foldlM (schemaAddField t pats) acc fs = Except.ok acc' →
      List.lookup n acc'.schema = List.lookup n acc.schema := by
  intro fs
  induction fs with
  | nil =>
    intro acc acc' h
    simp only [List.foldlM_nil, pure, Except.pure, Except.ok.injEq] at h
    rw [← h]
  | cons f fs ih =>
    intro acc acc' h
    simp only [List.foldlM_cons] at h
    cases hstep : schemaAddField t pats acc f with
    | error e => rw [hstep] at h; exact absurd h (by simp [Except.bind, bind])
    | ok acc₁ =>
      rw [hstep] at h
      simp only [Except.bind, bind] at h
      rw [ih acc₁ acc' h]
      by_cases hfx : isColumnExcluded pats f.name = true
      · rw [schemaAddField_excluded_eq t pats acc f hfx] at hstep
        injection hstep with hstep
        rw [hstep]
      · have hne : n ≠ f.name := by
          intro hcontra
          rw [← hcontra] at hfx
          exact hfx hx
        rcases schemaAddField_ok_schema t pats acc acc₁ f hstep with hsame | ⟨cd, hupd⟩
        · rw [hsame]
        · rw [hupd, lookup_updateAssoc_ne _ _ _ _ hne]

theorem foldlM_schema_isSome (t : String) (pats : List RePattern) (n : String) :
    ∀ (fs : List ContField) (acc acc' : SchemaAcc),
      List.foldlM (schemaAddField t pats) acc fs = Except.ok acc' →
      (List.lookup n acc.schema).isSome →
      (List.lookup n acc'.schema).isSome := by
  intro fs
  induction fs with
  | nil =>
    intro acc acc' h hs
    simp only [List.foldlM_nil, pure, Except.pure, Except.ok.injEq] at h
    rw [← h]
    exact hs
  | cons f fs ih =>
    intro acc acc' h hs
    simp only [List.foldlM_cons] at h
    cases hstep : schemaAddField t pats acc f with
    | error e => rw [hstep] at h; exact absurd h (by simp [Except.bind, bind])
    | ok acc₁ =>
      rw [hstep] at h
      simp only [Except.bind, bind] at h
      refine ih acc₁ acc' h ?_
      rcases schemaAddField_ok_schema t pats acc acc₁ f hstep with hsame | ⟨cd, hupd⟩
      · rw [hsame]; exact hs
      · rw [hupd]
        exact lookup_updateAssoc_isSome _ _ _ _ hs

theorem foldlM_schema_supported (t : String) (pats : List RePattern) :
    ∀ (fs : List ContField) (acc acc' : SchemaAcc) (f : ContField),
      List.foldlM (schemaAddField t pats) acc fs = Except.ok acc' →
      f ∈ fs →
      isColumnExcluded pats f.name = false →
      supportedKind f.value = true →
      (List.lookup f.name acc'.schema).isSome := by
  intro fs
  induction fs with
  | nil => intro acc acc' f h hf; exact absurd hf (List.not_mem_nil f)
  | cons g gs ih =>
    intro acc acc' f h hf hx hsup
    simp only [List.foldlM_cons] at h
    cases hstep : schemaAddField t pats acc g with
    | error e => rw [hstep] at h; exact absurd h (by simp [Except.bind, bind])
    | ok acc₁ =>
      rw [hstep] at h
      simp only [Except.bind, bind] at h
      rcases List.mem_cons.mp hf with rfl | hf'
      · exact foldlM_schema_isSome t pats f.name gs acc₁ acc' h
          (schemaAddField_ok_adds t pats acc acc₁ f hx hsup hstep)
      · exact ih acc₁ acc' f h hf' hx hsup

theorem lookup_map_fst_none {β γ : Type} (l : List (String × β)) (g : String × β → γ)
    (n : String) (h : List.lookup n l = none) :
    List.lookup n (l.map (fun p => (p.1, g p))) = none := by
  induction l with
  | nil => rfl
  | cons p rest ih =>
    obtain ⟨a, b⟩ := p
    cases hna : (n == a) with
    | true => simp [List.lookup, hna] at h
    | false =>
      simp only [List.lookup, hna, List.map] at h ⊢
      exact ih h

theorem contains_eq_false_of_lookup_none {β : Type} (l : List (String × β)) (n : String)
    (h : List.lookup n l = none) :
    (List.map (fun x => x.1) l).contains n = false := by
  induction l with
  | nil => rfl
  | cons p rest ih =>
    obtain ⟨a, b⟩ := p
    cases hna : (n == a) with
    | true => simp [List.lookup, hna] at h
    | false =>
      simp only [List.lookup, hna] at h
      simp only [List.map, List.contains, List.elem, hna]
      exact ih h

theorem foldl_row_lookup_none (F : ContField → Value) (colnames : List String) (n : String)
    (hn : colnames.contains n = false) :
    ∀ (fs : List ContField) (row : HRow), List.lookup n row = none →
      (∀ f ∈ fs, colnames.contains f.name = true) →
      List.lookup n (List.foldl (fun row f => updateAssoc row f.name (F f)) row fs) = none := by
  intro fs
  induction fs with
  | nil => intro row hrow _; exact hrow
  | cons f fs ih =>
    intro row hrow hall
    simp only [List.foldl_cons]
    refine ih _ ?_ (fun g hg => hall g (List.mem_cons_of_mem f hg))
    have hne : n ≠ f.name := by
      intro hcontra
      have hmem := hall f (List.mem_cons_self f fs)
      rw [← hcontra] at hmem
      rw [hmem] at hn
      exact Bool.noConfusion hn
    rw [lookup_updateAssoc_ne _ _ _ _ hne]
    exact hrow

theorem appendRow_row_none (w : WriterState) (t : String) (c : Container)
    (path : String) (tab : HTable)
    (hp : List.lookup t w.tablePaths = some path)
    (hn : List.lookup path w.h5.nodes = some tab) :
    ∃ row : HRow,
      w.appendRow t [c]
        = { w with h5 := { w.h5 with
              nodes := updateAssoc w.h5.nodes path { tab with rows := tab.rows ++ [row] } } }
      ∧ ∀ n, List.lookup n tab.description = none → List.lookup n row = none := by
  unfold WriterState.appendRow
  rw [hp]
  dsimp only
  rw [hn]
  refine ⟨_, rfl, ?_⟩
  intro n hdesc
  simp only [List.foldl_cons, List.foldl_nil]
  exact foldl_row_lookup_none (fun f => applyColTransform w.transforms t f.name f.value)
    (List.map (fun x => x.1) tab.description) n
    (contains_eq_false_of_lookup_none _ _ hdesc) _ _
    (lookup_map_fst_none _ _ _ hdesc)
    (fun f hf => (List.mem_filter.mp hf).2)

/-- C3 amended: after registering exclusion patterns for a table and then
performing the first write, every field whose name a pattern matches at its
start is absent from the derived schema and from every written row; every
field NOT matching any pattern is present in the schema provided its value
kind is one the writer supports (an unmatched field of unsupported kind is
also absent — skipped by the type dispatch, not by exclusion). -/
theorem C3_exclusion_amended (w₀ : WriterState) (t : String) (pats : List RePattern)
    (c : Container) (w' : WriterState)
    (hfresh : List.lookup t w₀.schemas = none)
    (hpats : w₀.exclusionsFor t = pats)
    (hw : w₀.writeOne t c = Except.ok w') :
    ∃ s path tab,
      List.lookup t w'.schemas = some s
      ∧ List.lookup t w'.tablePaths = some path
      ∧ List.lookup path w'.h5.nodes = some tab
      ∧ tab.description = s
      ∧ (∀ f ∈ c.fields,
          (isColumnExcluded pats f.name = true →
            List.lookup f.name s = none ∧ ∀ row ∈ tab.rows, List.lookup f.name row = none)
          ∧ (isColumnExcluded pats f.name = false → supportedKind f.value = true →
              (List.lookup f.name s).isSome)) := by
  unfold WriterState.writeOne WriterState.write at hw
  rw [if_neg (by simp [hfresh])] at hw
  cases hsetup : w₀.setupNewTable t [c] with
  | error e => rw [hsetup] at hw; exact absurd hw (by simp [Except.bind])
  | ok ws =>
    rw [hsetup] at hw
    simp only [Except.bind, Except.ok.injEq] at hw
    unfold WriterState.setupNewTable at hsetup
    rw [hpats] at hsetup
    cases hacc : createHdf5TableSchema pats t [c] w₀.transforms with
    | error e => rw [hacc] at hsetup; exact absurd hsetup (by simp [Except.bind, bind])
    | ok acc =>
      rw [hacc] at hsetup
      simp only [Except.bind, bind, Except.ok.injEq] at hsetup
      unfold createHdf5TableSchema at hacc
      simp only [List.foldlM_cons, List.foldlM_nil] at hacc
      cases hfold : List.foldlM (schemaAddField t pats) ⟨[], [], w₀.transforms⟩ c.fields with
      | error e =>
        rw [hfold] at hacc
        exact absurd hacc (by simp [Except.bind, bind, pure, Except.pure])
      | ok acc₀ =>
        rw [hfold] at hacc
        simp only [Except.bind, bind, pure, Except.pure, Except.ok.injEq] at hacc
        subst hacc
        have hpws : List.lookup t ws.tablePaths = some (nodePath w₀.groupName t) := by
          rw [← hsetup]
          exact lookup_updateAssoc_self _ _ _
        have hex1 : ∃ tabi, List.lookup (nodePath w₀.groupName t) ws.h5.nodes = some tabi
            ∧ tabi.description = acc₀.schema ∧ tabi.rows = [] := by
          rw [← hsetup]
          exact ⟨_, lookup_updateAssoc_self _ _ _, rfl, rfl⟩
        obtain ⟨tabi, hnws, hdesci, hrows0⟩ := hex1
        have hsws : List.lookup t ws.schemas = some acc₀.schema := by
          rw [← hsetup]
          exact lookup_updateAssoc_self _ _ _
        obtain ⟨row, heqa, hrowprop⟩ := appendRow_row_none ws t c _ tabi hpws hnws
        have hw' : w' = { ws with h5 := { ws.h5 with
            nodes := updateAssoc ws.h5.nodes (nodePath w₀.groupName t)
              { tabi with rows := tabi.rows ++ [row] } } } := by
          rw [← hw, heqa]
        refine ⟨acc₀.schema, nodePath w₀.groupName t,
          { tabi with rows := tabi.rows ++ [row] }, ?_, ?_, ?_, ?_, ?_⟩
        · rw [hw']
          exact hsws
        · rw [hw']
          exact hpws
        · rw [hw']
          exact lookup_updateAssoc_self _ _ _
        · exact hdesci
        · intro f hf
          constructor
          · intro hexcl
            have hnone : List.lookup f.name acc₀.schema = none := by
              rw [foldlM_schema_excluded t pats f.name hexcl c.fields _ acc₀ hfold]
              rfl
            refine ⟨hnone, ?_⟩
            intro row' hrow'
            rw [hrows0] at hrow'
            simp only [List.nil_append, List.mem_singleton] at hrow'
            rw [hrow']
            refine hrowprop f.name ?_
            rw [hdesci]
            exact hnone
          · intro hexcl hsup
            exact foldlM_schema_supported t pats c.fields _ acc₀ f hfold hf hexcl hsup


/-- C3 counterexample: with pattern `raw_.*` registered, the field `note`
(whose value is a python string, an unsupported kind) matches no pattern and
is still absent from the schema, refuting "every field not matching any
registered pattern is present"; the matching field `raw_x` is absent and the
unmatched supported field `keep` is present, as the claim also says. -/
theorem C3_counterexample :
    ((((WriterState.init "g").exclude "t" rawPattern).writeOne "t" cExcl).toOption.map
        (fun w => List.lookup "t" w.schemas))
      = some (some [("keep", ⟨ColType.IntCol, []⟩)])
    ∧ rawPattern.matchAtStart "note" = false
    ∧ List.lookup "note" [("keep", (⟨ColType.IntCol, []⟩ : ColDesc))] = none := by
  refine ⟨by rfl, by rfl, by rfl⟩

/-- C3 witness: the amended statement at pattern `raw_.*` over `cExcl`. -/
theorem C3_exclusion_amended_witness :
    ∃ s path tab,
      List.lookup "t" wExclFinal.schemas = some s
      ∧ List.lookup "t" wExclFinal.tablePaths = some path
      ∧ List.lookup path wExclFinal.h5.nodes = some tab
      ∧ tab.description = s
      ∧ (∀ f ∈ cExcl.fields,
          (isColumnExcluded [rawPattern] f.name = true →
            List.lookup f.name s = none ∧ ∀ row ∈ tab.rows, List.lookup f.name row = none)
          ∧ (isColumnExcluded [rawPattern] f.name = false → supportedKind f.value = true →
              (List.lookup f.name s).isSome)) :=
  C3_exclusion_amended ((WriterState.init "g").exclude "t" rawPattern) "t" [rawPattern]
    cExcl wExclFinal (by rfl) (by rfl) (by rfl)

end HdfTableModel
